import Mathlib

/-
Verification of the Inspire PDG-identifier synchronisation task
(`bibtasklets/bst_pdg_update_idents.py`) and of the web-submission record
forwarder (`websubmit/CONFSUBMIT_Insert_Record.py`).

The Python code is shallowly embedded: dictionaries become association
lists, fallible operations (dictionary key access, indexing the first
element of a possibly empty list, `int()` conversion, iterating a
non-iterable JSON value) become `Option`-valued functions where `none`
models a raised exception.  File output and log output are modelled as an
event trace; the surrounding platform (search engine, record store, XML
serializer, task queue) is modelled through an explicit environment.
Platform log lines outside the write paths are not part of the model, and
the output directory and timestamp components of file names are abstracted
away: events carry only the base file name passed by the script.
-/

set_option autoImplicit false

namespace Inspire

/-- JSON values occurring in the PDG feed: integers, strings, and arrays
of strings (`pdgIdList` values). -/
inductive JVal where
  | jint (n : Int)
  | jstr (s : String)
  | jarr (xs : List String)
  deriving DecidableEq, Repr

/-- A JSON object from the input file: an association list of keys and
values (Python `dict`). -/
abbrev Element := List (String × JVal)

/-- A MARC field instance, matching the `invenio.bibrecord` field tuple
`(subfields, ind1, ind2, controlfield_value, global_position)`; `field[4]`
is `globalPosition`. -/
structure Field where
  subfields : List (String × String)
  ind1 : String
  ind2 : String
  controlfieldValue : String
  globalPosition : Nat
  deriving DecidableEq, Repr

/-- A record: Python dict from tag to the list of field instances. -/
abbrev Record := List (String × List Field)

/-- First-match association-list lookup, modelling Python dict access. -/
def alistLookup {α β : Type} [DecidableEq α] (k : α) : List (α × β) → Option β
  | [] => none
  | p :: ps => if p.1 = k then some p.2 else alistLookup k ps

/-- Dict assignment `d[k] = v`: overwrite the existing entry or append. -/
def alistUpsert {α β : Type} [DecidableEq α] (l : List (α × β)) (k : α) (v : β) :
    List (α × β) :=
  if (alistLookup k l).isSome then
    l.map (fun p => if p.1 = k then (k, v) else p)
  else
    l ++ [(k, v)]

/-- Models `invenio.bibrecord.field_get_subfield_values`: the values of all
subfields of `field` with the given code, in order. -/
def field_get_subfield_values (field : Field) (code : String) : List String :=
  (field.subfields.filter (fun sf => decide (sf.1 = code))).map (fun sf => sf.2)

/-- Models `invenio.bibrecord.record_get_field_instances` for the calls made
by this script: the instances of `tag` in the record, `[]` when absent. -/
def record_get_field_instances (r : Record) (tag : String) : List Field :=
  (alistLookup tag r).getD []

/-- Python `tag in record`. -/
def recordHas (r : Record) (tag : String) : Bool :=
  (alistLookup tag r).isSome

/-- Largest global field position used in the record (0 when empty); new
fields are placed just above it, as `bibrecord.record_add_field` does. -/
def maxGlobalPosition (r : Record) : Nat :=
  r.foldl (fun m p => p.2.foldl (fun m' f => max m' f.globalPosition) m) 0

/-- Append a field instance under `tag`, creating the tag entry if needed. -/
def recordAppendField (r : Record) (tag : String) (f : Field) : Record :=
  if (alistLookup tag r).isSome then
    r.map (fun p => if p.1 = tag then (p.1, p.2 ++ [f]) else p)
  else
    r ++ [(tag, [f])]

/-- Models `invenio.bibrecord.record_add_field`: adds a fresh field with no
subfields and returns the updated record with the new global position. -/
def record_add_field (r : Record) (tag ind1 ind2 cfv : String) : Record × Nat :=
  let pos := maxGlobalPosition r + 1
  (recordAppendField r tag ⟨[], ind1, ind2, cfv, pos⟩, pos)

/-- Models `invenio.bibrecord.record_add_subfield_into`: appends a subfield
to the field of `tag` sitting at `pos` (unchanged if no such field exists;
that error case never arises in this script, which only targets positions
returned by `record_add_field`). -/
def record_add_subfield_into (r : Record) (tag code value : String) (pos : Nat) :
    Record :=
  r.map (fun p =>
    if p.1 = tag then
      (p.1, p.2.map (fun f =>
        if f.globalPosition = pos then
          { f with subfields := f.subfields ++ [(code, value)] }
        else f))
    else p)

/-- Models `invenio.bibrecord.record_delete_field` with a global position:
removes the instances of `tag` at that position. -/
def record_delete_field (r : Record) (tag : String) (pos : Nat) : Record :=
  r.map (fun p =>
    if p.1 = tag then (p.1, p.2.filter (fun f => decide (f.globalPosition ≠ pos)))
    else p)

/-- Models the external `record_xml_output` serializer; only the presence of
the produced lines matters to the script's claims. -/
def record_xml_output (r : Record) : List String :=
  ["<record>"] ++ r.map (fun p => "  <datafield tag=" ++ p.1 ++ " n=" ++ toString p.2.length ++ ">") ++ ["</record>"]

/-- Python `int(v)` on a JSON value: identity on integers, string parsing on
strings (approximated by `String.toInt?`), a `TypeError` (`none`) otherwise. -/
def pyInt : JVal → Option Int
  | .jint n => some n
  | .jstr s => s.toInt?
  | .jarr _ => none

/-- Python iteration over a JSON value, as in `set(v)` or `for x in v`:
arrays yield their elements, strings their characters, integers raise. -/
def pyIterStrings : JVal → Option (List String)
  | .jarr xs => some xs
  | .jstr s => some (s.toList.map (fun c => String.mk [c]))
  | .jint _ => none

/-- Python `list(set(a) - set(b))`: the distinct elements of `a` not in `b`
(in first-occurrence order; CPython's set order is abstracted). -/
def pySetDiff {α : Type} [DecidableEq α] (a b : List α) : List α :=
  a.dedup.filter (fun x => decide (x ∉ b))

/-- Python `list(set(a) & set(b))`: the distinct elements of `a` also in `b`. -/
def pySetInter {α : Type} [DecidableEq α] (a b : List α) : List α :=
  a.dedup.filter (fun x => decide (x ∈ b))

/-- Equality of the underlying sets of two key lists, as in
`set(element.keys()) == set(('inspireId', 'pdgIdList'))`. -/
def listSetEq (a b : List String) : Bool :=
  a.all (fun x => decide (x ∈ b)) && b.all (fun x => decide (x ∈ a))

/-- The three-way parse outcome (`ParseResult` pseudo-enum in the script). -/
inductive ParseResult where
  | Success
  | Missing
  | Invalid
  deriving DecidableEq, Repr

/-- Embeds `parse_pdg_element`.  Returns `none` when the Python code would
raise (an `inspireId` value `int()` cannot convert); otherwise the status
with the optional recid and the raw `pdgIdList` value.  `hep_collection`
models the default argument `get_collection_reclist('HEP')`. -/
def parse_pdg_element (element : Element) (hep_collection : List Int) :
    Option (ParseResult × Option Int × Option JVal) :=
  if listSetEq (element.map Prod.fst) ["inspireId", "pdgIdList"] = false then
    some (ParseResult.Invalid, none, none)
  else
    match alistLookup "inspireId" element, alistLookup "pdgIdList" element with
    | some idVal, some listVal =>
      match pyInt idVal with
      | none => none
      | some recid =>
        if recid ∉ hep_collection then some (ParseResult.Missing, none, none)
        else some (ParseResult.Success, some recid, some listVal)
    | _, _ => none

/-- Embeds `is_pdg_field`.  The Python code indexes element `[0]` of the
subfield-value lists, so the result is undefined (`none`, an `IndexError`)
when the needed list is empty. -/
def is_pdg_field (field : Field) : Option Bool :=
  match (field_get_subfield_values field "2").head? with
  | none => none
  | some v2 =>
    if v2 = "PDG" then
      match (field_get_subfield_values field "9").head? with
      | none => none
      | some v9 => if v9 = "PDG" then some true else some false
    else some false

/-- The filtering loop of `remove_pdg_fields`: keeps the fields classified
as PDG fields, failing as soon as `is_pdg_field` is undefined. -/
def filterPdg : List Field → Option (List Field)
  | [] => some []
  | f :: fs => do
    let b ← is_pdg_field f
    let rest ← filterPdg fs
    pure (if b then f :: rest else rest)

/-- The collection loop of `check_existing_pdg_fields`: the `'a'` subfield
value of each PDG field, failing where the Python code would raise. -/
def collectPdgValues : List Field → Option (List String)
  | [] => some []
  | f :: fs => do
    let b ← is_pdg_field f
    if b then do
      let v ← (field_get_subfield_values f "a").head?
      let rest ← collectPdgValues fs
      pure (v :: rest)
    else collectPdgValues fs

/-- The deletion loop of `check_existing_pdg_fields`: walks the snapshot of
field instances and deletes from the working record every PDG field whose
`'a'` value is among `deletions`, matching by global position. -/
def applyDeletions (deletions : List String) : List Field → Record → Option Record
  | [], rm => some rm
  | f :: fs, rm => do
    let b ← is_pdg_field f
    if b then do
      let v ← (field_get_subfield_values f "a").head?
      let rm' := if v ∈ deletions then record_delete_field rm "084" f.globalPosition else rm
      applyDeletions deletions fs rm'
    else applyDeletions deletions fs rm

/-- One iteration of the field-building loops shared by
`create_new_pdg_fields` and `check_existing_pdg_fields`: a fresh `084`
field with subfields `2=PDG`, `9=PDG`, `a=value`. -/
def addPdgField (rm : Record) (value : String) : Record :=
  let rp := record_add_field rm "084" " " " " ""
  let rm1 := record_add_subfield_into rp.1 "084" "2" "PDG" rp.2
  let rm2 := record_add_subfield_into rm1 "084" "9" "PDG" rp.2
  record_add_subfield_into rm2 "084" "a" value rp.2

/-- The per-record body of `create_new_pdg_fields`: a new record with a
`001` control field and one PDG `084` field per value. -/
def createOne (recid : Int) (vals : List String) : Record :=
  vals.foldl addPdgField (record_add_field [] "001" " " " " (toString recid)).1

/-- The per-record body of `remove_pdg_fields`: `record_mod` consisting of
the `001` entry and exactly the PDG-classified `084` instances. -/
def removeOne (r : Record) : Option Record := do
  let f001 ← alistLookup "001" r
  let kept ← filterPdg (record_get_field_instances r "084")
  pure [("001", f001), ("084", kept)]

/-- Body of `check_existing_pdg_fields` after the two (fallible) lookups of
the current record's `001` and `084` entries: compare current and desired
PDG value sets, apply deletions and additions when they differ, or signal
"nothing to change" (`some none`). -/
def checkOneCore (newData : List String) (f001 f084 : List Field) :
    Option (Option Record) :=
  let record_mod : Record := [("001", f001), ("084", f084)]
  let fields := record_get_field_instances record_mod "084"
  (collectPdgValues fields).bind (fun current_pdg_data =>
    let deletions := pySetDiff current_pdg_data newData
    let additions := pySetDiff newData current_pdg_data
    if deletions.length > 0 ∨ additions.length > 0 then
      (if deletions.length > 0 then applyDeletions deletions fields record_mod
       else some record_mod).bind (fun rm1 =>
        some (some (additions.foldl addPdgField rm1)))
    else some none)

/-- The per-record body of `check_existing_pdg_fields`.  Result
`some none` models the "nothing to change" skip; `some (some rm)` the
corrected record; `none` a raised exception. -/
def checkOne (newData : List String) (r : Record) : Option (Option Record) :=
  (alistLookup "001" r).bind (fun f001 =>
    (alistLookup "084" r).bind (fun f084 =>
      checkOneCore newData f001 f084))

/-- One loop iteration of the three reconciler functions: run the step for
`recid`; `some rm` stores `records[recid] = rm`, `none` skips. -/
def buildStep (step : Int → Option (Option Record))
    (acc : List (Int × Record)) (recid : Int) : Option (List (Int × Record)) := do
  match ← step recid with
  | some rm => pure (alistUpsert acc recid rm)
  | none => pure acc

/-- The `records = {}; for recid in recids: ...` loop shape. -/
def buildRecords (step : Int → Option (Option Record)) (recids : List Int) :
    Option (List (Int × Record)) :=
  recids.foldlM (buildStep step) []

/-- Loop body of `create_new_pdg_fields` for one recid: fetch and iterate
`pdg_data[recid]` and build the fresh record. -/
def createStep (pdg_data : Int → Option JVal) (recid : Int) : Option (Option Record) :=
  (pdg_data recid).bind (fun v =>
    (pyIterStrings v).bind (fun vals => some (some (createOne recid vals))))

/-- Embeds `create_new_pdg_fields`; `pdg_data` is the `new_pdg_data` dict. -/
def create_new_pdg_fields (recids : List Int) (pdg_data : Int → Option JVal) :
    Option (List (Int × Record)) :=
  buildRecords (createStep pdg_data) recids

/-- Loop body of `remove_pdg_fields` for one recid. -/
def removeStep (current_records : Int → Option Record) (recid : Int) :
    Option (Option Record) :=
  (current_records recid).bind (fun r => (removeOne r).bind (fun rm => some (some rm)))

/-- Embeds `remove_pdg_fields`. -/
def remove_pdg_fields (recids : List Int) (current_records : Int → Option Record) :
    Option (List (Int × Record)) :=
  buildRecords (removeStep current_records) recids

/-- Loop body of `check_existing_pdg_fields` for one recid. -/
def checkStep (pdg_data : Int → Option JVal) (current_records : Int → Option Record)
    (recid : Int) : Option (Option Record) :=
  (current_records recid).bind (fun r =>
    (pdg_data recid).bind (fun v =>
      (pyIterStrings v).bind (fun nd => checkOne nd r)))

/-- Embeds `check_existing_pdg_fields`. -/
def check_existing_pdg_fields (recids : List Int) (pdg_data : Int → Option JVal)
    (current_records : Int → Option Record) : Option (List (Int × Record)) :=
  buildRecords (checkStep pdg_data current_records) recids

/-- Embeds `ids_add = list(set(new_pdg_data.keys()) - set(current_record_ids))`. -/
def ids_add (newIds current_record_ids : List Int) : List Int :=
  pySetDiff newIds current_record_ids

/-- Embeds `ids_compare = list(set(current_record_ids) & set(new_pdg_data.keys()))`. -/
def ids_compare (current_record_ids newIds : List Int) : List Int :=
  pySetInter current_record_ids newIds

/-- Embeds `ids_delete = list(set(current_record_ids) - set(new_pdg_data.keys()))`. -/
def ids_delete (current_record_ids newIds : List Int) : List Int :=
  pySetDiff current_record_ids newIds

/-- Observable output of a run: a log line or a file write. -/
inductive Event where
  | log (line : String)
  | fileWrite (name : String) (lines : List String)
  deriving DecidableEq, Repr

/-- The file name written by an event, `none` for log events. -/
def eventFileName : Event → Option String
  | .log _ => none
  | .fileWrite name _ => some name

/-- How a run of `main` ends. -/
inductive Outcome where
  | completed
  | exited (code : Nat)
  | crashed
  deriving DecidableEq, Repr

/-- Rendering of a JSON value on a report line (content is irrelevant to
the claims; only which files are written matters). -/
def jvalStr : JVal → String
  | .jint n => toString n
  | .jstr s => s
  | .jarr xs => String.intercalate "," xs

/-- Rendering of an input element on a report line. -/
def elementStr (e : Element) : String :=
  String.intercalate ";" (e.map (fun p => p.1 ++ "=" ++ jvalStr p.2))

/-- Embeds `write_list_to_file`.  `fails` models an `IOError` during open
or write: it is caught and only logged; the trailing count line is printed
either way (it sits outside the `try` block in the script). -/
def write_list_to_file (fails : Bool) (name : String) (list_to_write : List String) :
    List Event :=
  let countLog := Event.log ("-> " ++ toString list_to_write.length ++
    " lines written to " ++ name)
  if fails then [Event.log ("Error: Could not write to file: " ++ name), countLog]
  else [Event.fileWrite name list_to_write, countLog]

/-- Embeds `write_records_to_file`: serializes the non-empty records into a
`<collection>` wrapper and writes, or in dry-run mode only logs the count. -/
def write_records_to_file (fails : Bool) (name : String)
    (records : List (Int × Record)) (dry_run : Bool) : List Event :=
  if records.length > 0 then
    let out := ["<collection>"] ++
      ((records.filter (fun p => decide (p.2 ≠ []))).map
        (fun p => record_xml_output p.2)).flatten ++ ["</collection>"]
    if dry_run then
      [Event.log ("DRY: Ready to write " ++ toString records.length ++
        " entries to file.")]
    else
      Event.log ("-> Writing " ++ toString records.length ++ " entries to file...") ::
        write_list_to_file fails name out
  else []

/-- Embeds `get_elements_from_file`: an `IOError` on the input file calls
`sys.exit(2)`, modelled as `Except.error 2`. -/
def get_elements_from_file : Option (List Element) → Except Nat (List Element)
  | none => Except.error 2
  | some es => Except.ok es

/-- External collaborators of one run of `main`: the HEP collection (the
default argument of `parse_pdg_element`), the search result for
`084:pdg`, the record store, the input file (`none` = `IOError`), and
which output files fail to write. -/
structure Env where
  hep_collection : List Int
  current_record_ids : List Int
  get_record : Int → Record
  input_file : Option (List Element)
  write_fails : String → Bool

/-- The input-parsing loop of `main` (lines 251-261): builds the
`new_pdg_data` dict and the missing/invalid element lists. -/
def parseAll (hep : List Int) (elems : List Element) :
    Option (List (Int × JVal) × List Element × List Element) :=
  elems.foldlM (fun acc element => do
    let (pdg, miss, inv) := acc
    let (status, r_id, data) ← parse_pdg_element element hep
    match status with
    | ParseResult.Success =>
      match r_id, data with
      | some rid, some d => pure (alistUpsert pdg rid d, miss, inv)
      | _, _ => none
    | ParseResult.Invalid => pure (pdg, miss, inv ++ [element])
    | ParseResult.Missing => pure (pdg, miss ++ [element], inv)) ([], [], [])

/-- The update-and-write phase of `main` (lines 284-314).  Each of the
three builders runs only when its id list is non-empty, otherwise the
corresponding variable stays `None` (`some none`).  The writing phase
guards `appends` and `deletions` with `is not None`, but `updates` with
`len(updates) > 0`, which raises a `TypeError` when `updates` is `None`. -/
def updateAndWrite (wf : String → Bool) (dry_run : Bool)
    (i_add i_cmp i_del : List Int) (pdgLookup : Int → Option JVal)
    (current_records : Int → Option Record) : List Event × Outcome :=
  match (if i_add.length > 0 then (create_new_pdg_fields i_add pdgLookup).map some
         else some none) with
  | none => ([], .crashed)
  | some appends =>
    match (if i_cmp.length > 0 then
             (check_existing_pdg_fields i_cmp pdgLookup current_records).map some
           else some none) with
    | none => ([], .crashed)
    | some updates =>
      match (if i_del.length > 0 then
               (remove_pdg_fields i_del current_records).map some
             else some none) with
      | none => ([], .crashed)
      | some deletions =>
        let evApp := match appends with
          | some a => write_records_to_file (wf "append.xml") "append.xml" a dry_run
          | none => []
        match updates with
        | none => (evApp, .crashed)
        | some u =>
          let evUpd := if u.length > 0 then
              write_records_to_file (wf "correct.xml") "correct.xml" u dry_run
            else []
          let evDel := match deletions with
            | some d => write_records_to_file (wf "delete.xml") "delete.xml" d dry_run
            | none => []
          (evApp ++ evUpd ++ evDel, .completed)

/-- The part of `main` after input parsing: missing/invalid reports, the
three reconciliation id sets, then the update-and-write phase. -/
def afterParse (wf : String → Bool) (dry_run : Bool)
    (current_record_ids : List Int) (current_records : Int → Option Record)
    (parsed : List (Int × JVal) × List Element × List Element) :
    List Event × Outcome :=
  let new_pdg_data := parsed.1
  let elements_missing := parsed.2.1
  let elements_invalid := parsed.2.2
  let evMiss := if elements_missing.length ≠ 0 then
      write_list_to_file (wf "missing-records.txt") "missing-records.txt"
        (elements_missing.map elementStr)
    else []
  let evInv := if elements_invalid.length ≠ 0 then
      write_list_to_file (wf "invalid-elements.txt") "invalid-elements.txt"
        (elements_invalid.map elementStr)
    else []
  let newIds := new_pdg_data.map Prod.fst
  let p := updateAndWrite wf dry_run
    (ids_add newIds current_record_ids)
    (ids_compare current_record_ids newIds)
    (ids_delete current_record_ids newIds)
    (fun recid => alistLookup recid new_pdg_data) current_records
  (evMiss ++ evInv ++ p.1, p.2)

/-- Embeds `main`: fetch the current records (dropping those without an
`084` field into the bad-id report), read and parse the input, and run the
reconciliation and writing phases. -/
def mainRun (env : Env) (dry_run : Bool) : List Event × Outcome :=
  let bad_record_ids := env.current_record_ids.filter
    (fun recid => !(recordHas (env.get_record recid) "084"))
  let goodIds := env.current_record_ids.filter
    (fun recid => recordHas (env.get_record recid) "084")
  let current_records : Int → Option Record :=
    fun recid => if recid ∈ goodIds then some (env.get_record recid) else none
  let evBad := if bad_record_ids.length > 0 then
      write_list_to_file (env.write_fails "bad_record_ids") "bad_record_ids"
        (bad_record_ids.map toString)
    else []
  match get_elements_from_file env.input_file with
  | .error code => (evBad, .exited code)
  | .ok new_elements =>
    match parseAll env.hep_collection new_elements with
    | none => (evBad, .crashed)
    | some parsed =>
      let p := afterParse env.write_fails dry_run env.current_record_ids
        current_records parsed
      (evBad ++ p.1, p.2)

/-- A side effect performed by the submission forwarder. -/
inductive SubmitAction where
  | copy (src dst : String)
  | submit (prog user : String) (args : List String)
  | writeFile (path : String) (content : String)
  deriving DecidableEq, Repr

/-- External state of the submission forwarder: the contents of `curdir`,
the shared staging directory `CFG_TMPSHAREDDIR`, the global report number
`rn`, the formatted current time, and the job id that
`task_low_level_submission` returns. -/
structure SubmitEnv where
  curdir : String
  sharedDir : String
  curdirFiles : List String
  rn : String
  timeStamp : String
  bibuploadId : Nat

/-- Models `os.path.join` for the simple relative names used here. -/
def pathJoin (a b : String) : String := a ++ "/" ++ b

/-- Embeds `CONFSUBMIT_Insert_Record`: raises (`Except.error`) when
`curdir/recmysql` does not exist; otherwise copies it to the staging
directory, submits the copy to bibupload, records the job id in
`curdir/bibupload_id` and returns `""`. -/
def CONFSUBMIT_Insert_Record (env : SubmitEnv) :
    Except String (List SubmitAction × String) :=
  if "recmysql" ∈ env.curdirFiles then
    let recfile := "recmysql"
    let initial_file := pathJoin env.curdir recfile
    let final_file := pathJoin env.sharedDir
      ((env.rn.replace "/" "_") ++ "_" ++ env.timeStamp)
    Except.ok ([SubmitAction.copy initial_file final_file,
      SubmitAction.submit "bibupload" "websubmit.Insert_Record"
        ["-r", "-i", final_file, "-P", "5"],
      SubmitAction.writeFile (pathJoin env.curdir "bibupload_id")
        (toString env.bibuploadId)], "")
  else
    Except.error "Could not find record file"

/-- A well-formed PDG `084` field instance, for concrete test records. -/
def pdgField (v : String) (pos : Nat) : Field :=
  ⟨[("2", "PDG"), ("9", "PDG"), ("a", v)], " ", " ", "", pos⟩

/-- The `001` entry of the concrete record below. -/
def ctl7 : List Field := [⟨[], " ", " ", "7", 1⟩]

/-- A concrete current record with recid 7 and one PDG value `S008`. -/
def rec7 : Record := [("001", ctl7), ("084", [pdgField "S008" 2])]

/-- Environment whose search result is `{7}` and whose input feed is empty:
the compare set is empty and the delete set is `{7}`. -/
def envEmptyCompare : Env :=
  ⟨[], [7], fun _ => rec7, some [], fun _ => false⟩

/-- Environment with no current records and a single malformed (empty)
input element, with every file write succeeding. -/
def envInvalidElem : Env :=
  ⟨[], [], fun _ => [], some [[]], fun _ => false⟩

/-- Environment whose input file raises an `IOError` on open. -/
def envNoInput : Env :=
  ⟨[], [], fun _ => [], none, fun _ => false⟩

/-- Concrete `current_records` dict holding only record 7. -/
def currentExample : Int → Option Record :=
  fun recid => if recid = 7 then some rec7 else none

/-- Concrete `new_pdg_data` dict mapping record 7 to its current value. -/
def pdExample : Int → Option JVal :=
  fun recid => if recid = 7 then some (JVal.jarr ["S008"]) else none

/-! Helper lemmas about association lists and the record-building fold. -/

lemma alistLookup_overwriteMap {α β : Type} [DecidableEq α]
    (l : List (α × β)) (k k' : α) (v : β) (h : k' ≠ k) :
    alistLookup k' (l.map (fun p => if p.1 = k then (k, v) else p)) =
      alistLookup k' l := by
  induction l with
  | nil => rfl
  | cons p ps ih =>
    by_cases hp : p.1 = k
    · simp [alistLookup, hp, Ne.symm h, ih]
    · simp only [List.map_cons, if_neg hp, alistLookup]
      by_cases hp' : p.1 = k' <;> simp [hp', ih]

lemma alistLookup_overwriteMap_self {α β : Type} [DecidableEq α]
    (l : List (α × β)) (k : α) (v : β) (h : (alistLookup k l).isSome) :
    alistLookup k (l.map (fun p => if p.1 = k then (k, v) else p)) = some v := by
  induction l with
  | nil => simp [alistLookup] at h
  | cons p ps ih =>
    by_cases hp : p.1 = k
    · simp [alistLookup, hp]
    · simp only [alistLookup, if_neg hp] at h
      simp [alistLookup, hp, ih h]

lemma alistLookup_append_single_ne {α β : Type} [DecidableEq α]
    (l : List (α × β)) (k k' : α) (v : β) (h : k' ≠ k) :
    alistLookup k' (l ++ [(k, v)]) = alistLookup k' l := by
  induction l with
  | nil => simp [alistLookup, Ne.symm h]
  | cons p ps ih =>
    by_cases hp : p.1 = k' <;> simp [alistLookup, hp, ih]

lemma alistLookup_append_single_self {α β : Type} [DecidableEq α]
    (l : List (α × β)) (k : α) (v : β) (h : alistLookup k l = none) :
    alistLookup k (l ++ [(k, v)]) = some v := by
  induction l with
  | nil => simp [alistLookup]
  | cons p ps ih =>
    by_cases hp : p.1 = k
    · simp [alistLookup, hp] at h
    · simp only [alistLookup, if_neg hp] at h
      simp [alistLookup, hp, ih h]

lemma alistLookup_upsert_self {α β : Type} [DecidableEq α]
    (l : List (α × β)) (k : α) (v : β) :
    alistLookup k (alistUpsert l k v) = some v := by
  unfold alistUpsert
  by_cases h : (alistLookup k l).isSome
  · simp only [h, if_true]
    exact alistLookup_overwriteMap_self l k v h
  · simp only [h, if_false]
    exact alistLookup_append_single_self l k v (by
      cases hl : alistLookup k l with
      | none => rfl
      | some w => rw [hl] at h; simp at h)

lemma alistLookup_upsert_ne {α β : Type} [DecidableEq α]
    (l : List (α × β)) (k k' : α) (v : β) (h : k' ≠ k) :
    alistLookup k' (alistUpsert l k v) = alistLookup k' l := by
  unfold alistUpsert
  by_cases hs : (alistLookup k l).isSome
  · simp only [hs, if_true]
    exact alistLookup_overwriteMap l k k' v h
  · simp only [hs, if_false]
    exact alistLookup_append_single_ne l k k' v h

lemma buildStep_eq (step : Int → Option (Option Record))
    (acc : List (Int × Record)) (recid : Int) :
    buildStep step acc recid = (step recid).bind (fun o =>
      match o with
      | some rm => some (alistUpsert acc recid rm)
      | none => some acc) := by
  unfold buildStep
  cases step recid <;> rfl

lemma buildRecords_fold_step_isSome (step : Int → Option (Option Record)) :
    ∀ (recids : List Int) (acc out : List (Int × Record)),
      List.foldlM (buildStep step) acc recids = some out →
      ∀ recid ∈ recids, (step recid).isSome := by
  intro recids
  induction recids with
  | nil => intro acc out _ recid h; simp at h
  | cons a rest ih =>
    intro acc out h recid hmem
    rw [List.foldlM_cons, buildStep_eq] at h
    cases hs : step a with
    | none => rw [hs] at h; simp at h
    | some o =>
      rw [hs] at h
      rcases List.mem_cons.mp hmem with heq | hrest
      · subst heq; simp [hs]
      · cases o with
        | some rm =>
          have h' : List.foldlM (buildStep step) (alistUpsert acc a rm) rest =
              some out := h
          exact ih _ out h' recid hrest
        | none =>
          have h' : List.foldlM (buildStep step) acc rest = some out := h
          exact ih _ out h' recid hrest

lemma buildRecords_fold_lookup (step : Int → Option (Option Record)) :
    ∀ (recids : List Int) (acc out : List (Int × Record)),
      List.foldlM (buildStep step) acc recids = some out →
      ∀ k : Int,
        (k ∈ recids →
          (∃ rm, step k = some (some rm) ∧ alistLookup k out = some rm) ∨
          (step k = some none ∧ alistLookup k out = alistLookup k acc)) ∧
        (k ∉ recids → alistLookup k out = alistLookup k acc) := by
  intro recids
  induction recids with
  | nil =>
    intro acc out h k
    simp only [List.foldlM_nil] at h
    cases h
    exact ⟨fun hk => absurd hk (List.not_mem_nil k), fun _ => rfl⟩
  | cons a rest ih =>
    intro acc out h k
    rw [List.foldlM_cons, buildStep_eq] at h
    cases hs : step a with
    | none => rw [hs] at h; simp at h
    | some o =>
      rw [hs] at h
      cases o with
      | some rm =>
        have h' : List.foldlM (buildStep step) (alistUpsert acc a rm) rest =
            some out := h
        have ih' := ih (alistUpsert acc a rm) out h'
        constructor
        · intro hk
          by_cases hr : k ∈ rest
          · rcases (ih' k).1 hr with hgood | ⟨hnone, hlook⟩
            · exact Or.inl hgood
            · refine Or.inr ⟨hnone, ?_⟩
              rw [hlook]
              have hka : k ≠ a := by
                intro hka; rw [hka, hs] at hnone
                exact Option.noConfusion (Option.some.inj hnone)
              exact alistLookup_upsert_ne acc a k rm hka
          · have hka : k = a := by
              rcases List.mem_cons.mp hk with h1 | h2
              · exact h1
              · exact absurd h2 hr
            subst hka
            refine Or.inl ⟨rm, hs, ?_⟩
            rw [(ih' k).2 hr]
            exact alistLookup_upsert_self acc k rm
        · intro hk
          have hka : k ≠ a := fun he => hk (he ▸ List.mem_cons_self a rest)
          have hkr : k ∉ rest := fun hr => hk (List.mem_cons_of_mem a hr)
          rw [(ih' k).2 hkr]
          exact alistLookup_upsert_ne acc a k rm hka
      | none =>
        have h' : List.foldlM (buildStep step) acc rest = some out := h
        have ih' := ih acc out h'
        constructor
        · intro hk
          by_cases hr : k ∈ rest
          · exact (ih' k).1 hr
          · have hka : k = a := by
              rcases List.mem_cons.mp hk with h1 | h2
              · exact h1
              · exact absurd h2 hr
            subst hka
            exact Or.inr ⟨hs, (ih' k).2 hr⟩
        · intro hk
          have hkr : k ∉ rest := fun hr => hk (List.mem_cons_of_mem a hr)
          exact (ih' k).2 hkr

/-! Lemmas about field classification and the comparison loops. -/

lemma is_pdg_field_isSome_iff (f : Field) :
    (is_pdg_field f).isSome ↔
      (field_get_subfield_values f "2") ≠ [] ∧
      ((field_get_subfield_values f "2").head? = some "PDG" →
        (field_get_subfield_values f "9") ≠ []) := by
  unfold is_pdg_field
  cases h2 : (field_get_subfield_values f "2").head? with
  | none =>
    have he : field_get_subfield_values f "2" = [] := List.head?_eq_none_iff.mp h2
    simp [he]
  | some v2 =>
    have hne : field_get_subfield_values f "2" ≠ [] := by
      intro he; rw [he] at h2; simp at h2
    by_cases hv : v2 = "PDG"
    · subst hv
      cases h9 : (field_get_subfield_values f "9").head? with
      | none =>
        have he9 : field_get_subfield_values f "9" = [] := List.head?_eq_none_iff.mp h9
        simp [hne, h2, he9]
      | some v9 =>
        have hne9 : field_get_subfield_values f "9" ≠ [] := by
          intro he; rw [he] at h9; simp at h9
        by_cases hv9 : v9 = "PDG" <;> simp [hv9, hne, hne9]
    · simp [hv, hne, h2]

lemma is_pdg_field_true_iff (f : Field) (h : (is_pdg_field f).isSome) :
    is_pdg_field f = some true ↔
      (field_get_subfield_values f "2").head? = some "PDG" ∧
      (field_get_subfield_values f "9").head? = some "PDG" := by
  unfold is_pdg_field at h ⊢
  cases h2 : (field_get_subfield_values f "2").head? with
  | none => rw [h2] at h; simp at h
  | some v2 =>
    rw [h2] at h
    by_cases hv : v2 = "PDG"
    · subst hv
      cases h9 : (field_get_subfield_values f "9").head? with
      | none => rw [h9] at h; simp at h
      | some v9 => by_cases hv9 : v9 = "PDG" <;> simp [h9, hv9]
    · simp [hv, h2]

lemma filterPdg_cons (f : Field) (fs : List Field) :
    filterPdg (f :: fs) = (is_pdg_field f).bind (fun b =>
      (filterPdg fs).bind (fun rest => some (if b then f :: rest else rest))) := rfl

lemma filterPdg_isSome_iff : ∀ (fields : List Field),
    (filterPdg fields).isSome ↔ ∀ f ∈ fields, (is_pdg_field f).isSome := by
  intro fields
  induction fields with
  | nil => simp [filterPdg]
  | cons f fs ih =>
    rw [filterPdg_cons]
    constructor
    · intro h g hg
      cases hb : is_pdg_field f with
      | none => rw [hb] at h; simp at h
      | some b =>
        rw [hb] at h
        cases hr : filterPdg fs with
        | none => rw [hr] at h; simp at h
        | some rest =>
          rcases List.mem_cons.mp hg with heq | hgs
          · subst heq; simp [hb]
          · exact (ih.mp (by simp [hr])) g hgs
    · intro h
      obtain ⟨b, hb⟩ := Option.isSome_iff_exists.mp (h f (List.mem_cons_self f fs))
      obtain ⟨rest, hr⟩ := Option.isSome_iff_exists.mp
        (ih.mpr (fun g hg => h g (List.mem_cons_of_mem f hg)))
      simp [hb, hr]

lemma filterPdg_eq_filter : ∀ (fields : List Field),
    (∀ f ∈ fields, (is_pdg_field f).isSome) →
    filterPdg fields =
      some (fields.filter (fun f => decide (is_pdg_field f = some true))) := by
  intro fields
  induction fields with
  | nil => intro _; rfl
  | cons f fs ih =>
    intro h
    obtain ⟨b, hb⟩ := Option.isSome_iff_exists.mp (h f (List.mem_cons_self f fs))
    have hrest := ih (fun g hg => h g (List.mem_cons_of_mem f hg))
    rw [filterPdg_cons, hb, hrest]
    cases b <;> simp [List.filter_cons, hb]

lemma collectPdgValues_isSome_mem : ∀ (fields : List Field),
    (collectPdgValues fields).isSome →
    ∀ f ∈ fields, (is_pdg_field f).isSome := by
  intro fields
  induction fields with
  | nil => intro _ f hf; simp at hf
  | cons f fs ih =>
    intro h g hg
    cases hb : is_pdg_field f with
    | none => simp [collectPdgValues, hb] at h
    | some b =>
      rcases List.mem_cons.mp hg with heq | hgs
      · subst heq; simp [hb]
      · refine ih ?_ g hgs
        cases b with
        | false =>
          simpa [collectPdgValues, hb] using h
        | true =>
          cases ha : (field_get_subfield_values f "a").head? with
          | none => simp [collectPdgValues, hb, ha] at h
          | some v =>
            cases hc : collectPdgValues fs with
            | none => simp [collectPdgValues, hb, ha, hc] at h
            | some rest => simp [hc]

lemma record_get_field_instances_mod (f001 f084 : List Field) :
    record_get_field_instances [("001", f001), ("084", f084)] "084" = f084 := by
  simp [record_get_field_instances, alistLookup]

lemma pySetDiff_eq_nil_of_subset {α : Type} [DecidableEq α] (a b : List α)
    (h : ∀ x ∈ a, x ∈ b) : pySetDiff a b = [] := by
  unfold pySetDiff
  rw [List.filter_eq_nil_iff]
  intro x hx
  simp only [decide_eq_true_eq, Decidable.not_not]
  exact h x (List.mem_dedup.mp hx)

lemma checkOneCore_skip (nd : List String) (f001 f084 : List Field)
    (cur : List String) (hcur : collectPdgValues f084 = some cur)
    (hdel : pySetDiff cur nd = []) (hadd : pySetDiff nd cur = []) :
    checkOneCore nd f001 f084 = some none := by
  unfold checkOneCore
  simp only [record_get_field_instances_mod, hcur]
  simp [hdel, hadd]

lemma record_get_field_instances_of_lookup (r : Record) (tag : String)
    (fs : List Field) (h : alistLookup tag r = some fs) :
    record_get_field_instances r tag = fs := by
  simp [record_get_field_instances, h]

lemma removeOne_eq (r : Record) (f001 : List Field)
    (h001 : alistLookup "001" r = some f001)
    (hdef : ∀ f ∈ record_get_field_instances r "084", (is_pdg_field f).isSome) :
    removeOne r = some [("001", f001),
      ("084", (record_get_field_instances r "084").filter
        (fun f => decide (is_pdg_field f = some true)))] := by
  unfold removeOne
  rw [h001, filterPdg_eq_filter _ hdef]
  rfl

lemma removeOne_isSome_defined (r : Record) (h : (removeOne r).isSome) :
    ∀ f ∈ record_get_field_instances r "084", (is_pdg_field f).isSome := by
  unfold removeOne at h
  cases h1 : alistLookup "001" r with
  | none => rw [h1] at h; simp at h
  | some f001 =>
    rw [h1] at h
    cases hf : filterPdg (record_get_field_instances r "084") with
    | none => rw [hf] at h; simp at h
    | some kept => exact filterPdg_isSome_iff _ |>.mp (by simp [hf])

lemma checkOne_isSome_parts (nd : List String) (r : Record)
    (h : (checkOne nd r).isSome) :
    ∃ f001 f084, alistLookup "001" r = some f001 ∧
      alistLookup "084" r = some f084 ∧ (collectPdgValues f084).isSome := by
  unfold checkOne at h
  cases h1 : alistLookup "001" r with
  | none => rw [h1] at h; simp at h
  | some f001 =>
    rw [h1] at h
    cases h2 : alistLookup "084" r with
    | none => rw [h2] at h; simp at h
    | some f084 =>
      rw [h2] at h
      refine ⟨f001, f084, rfl, rfl, ?_⟩
      simp only [Option.some_bind] at h
      unfold checkOneCore at h
      simp only [record_get_field_instances_mod] at h
      cases hc : collectPdgValues f084 with
      | none => rw [hc] at h; simp at h
      | some cur => simp

lemma checkOne_isSome_defined (nd : List String) (r : Record)
    (h : (checkOne nd r).isSome) :
    ∀ f ∈ record_get_field_instances r "084", (is_pdg_field f).isSome := by
  obtain ⟨f001, f084, _, h2, hc⟩ := checkOne_isSome_parts nd r h
  rw [record_get_field_instances_of_lookup r "084" f084 h2]
  exact collectPdgValues_isSome_mem f084 hc

/-! Lemmas about the events a dry run can emit. -/

lemma write_list_to_file_names (fl : Bool) (n : String) (xs : List String) :
    ∀ e ∈ write_list_to_file fl n xs,
      eventFileName e = none ∨ eventFileName e = some n := by
  intro e he
  unfold write_list_to_file at he
  cases fl
  · simp at he
    rcases he with h | h <;> simp [h, eventFileName]
  · simp at he
    rcases he with h | h <;> simp [h, eventFileName]

lemma ite_write_list_names (c : Prop) [Decidable c] (fl : Bool) (n : String)
    (xs : List String) :
    ∀ e ∈ (if c then write_list_to_file fl n xs else []),
      eventFileName e = none ∨ eventFileName e = some n := by
  split
  · exact write_list_to_file_names fl n xs
  · intro e he
    simp at he

lemma write_records_to_file_dry (fl : Bool) (n : String)
    (rs : List (Int × Record)) :
    ∀ e ∈ write_records_to_file fl n rs true, eventFileName e = none := by
  intro e he
  unfold write_records_to_file at he
  by_cases h : rs.length > 0
  · rw [if_pos h] at he
    simp at he
    simp [he, eventFileName]
  · rw [if_neg h] at he
    simp at he

lemma updateAndWrite_dry_names (wf : String → Bool) (ia ic idl : List Int)
    (pl : Int → Option JVal) (cr : Int → Option Record) :
    ∀ e ∈ (updateAndWrite wf true ia ic idl pl cr).1, eventFileName e = none := by
  intro e he
  unfold updateAndWrite at he
  rcases hA : (if ia.length > 0 then (create_new_pdg_fields ia pl).map some
      else some none) with _ | appends
  · simp only [hA] at he
    simp at he
  · simp only [hA] at he
    rcases hU : (if ic.length > 0 then
        (check_existing_pdg_fields ic pl cr).map some
      else some none) with _ | updates
    · simp only [hU] at he
      simp at he
    · simp only [hU] at he
      rcases hD : (if idl.length > 0 then (remove_pdg_fields idl cr).map some
          else some none) with _ | deletions
      · simp only [hD] at he
        simp at he
      · simp only [hD] at he
        have hApp : ∀ e' ∈ (match appends with
            | some a => write_records_to_file (wf "append.xml") "append.xml" a true
            | none => ([] : List Event)), eventFileName e' = none := by
          cases appends with
          | none => intro e' he'; simp at he'
          | some a => exact write_records_to_file_dry _ _ a
        cases updates with
        | none => exact hApp e he
        | some u =>
          simp only [List.mem_append] at he
          rcases he with (he | he) | he
          · exact hApp e he
          · revert he
            split
            · intro he
              exact write_records_to_file_dry _ _ u e he
            · intro he
              simp at he
          · cases deletions with
            | some d => exact write_records_to_file_dry _ _ d e he
            | none => simp at he

lemma afterParse_dry_names (wf : String → Bool) (cri : List Int)
    (cr : Int → Option Record)
    (parsed : List (Int × JVal) × List Element × List Element) :
    ∀ e ∈ (afterParse wf true cri cr parsed).1,
      eventFileName e = none ∨ eventFileName e = some "missing-records.txt" ∨
      eventFileName e = some "invalid-elements.txt" := by
  intro e he
  unfold afterParse at he
  simp only [List.mem_append] at he
  rcases he with (he | he) | he
  · rcases ite_write_list_names _ _ _ _ e he with h | h
    · exact Or.inl h
    · exact Or.inr (Or.inl h)
  · rcases ite_write_list_names _ _ _ _ e he with h | h
    · exact Or.inl h
    · exact Or.inr (Or.inr h)
  · exact Or.inl (updateAndWrite_dry_names _ _ _ _ _ _ e he)

/-! Claim theorems. -/

/-- C1: for an element whose key set is exactly `{inspireId, pdgIdList}`
with an integer `inspireId`, `parse_pdg_element` returns `Success` together
with the record id and the pdg value list when the id is in the HEP
collection, and `Missing` (with no data) otherwise. -/
theorem parse_pdg_element_wellformed (element : Element) (hep : List Int)
    (n : Int) (v : JVal)
    (hkeys : listSetEq (element.map Prod.fst) ["inspireId", "pdgIdList"] = true)
    (hid : alistLookup "inspireId" element = some (JVal.jint n))
    (hlist : alistLookup "pdgIdList" element = some v) :
    parse_pdg_element element hep =
      if n ∈ hep then some (ParseResult.Success, some n, some v)
      else some (ParseResult.Missing, none, none) := by
  by_cases hmem : n ∈ hep <;>
    simp [parse_pdg_element, hkeys, hid, hlist, pyInt, hmem]

/-- Witness for C1: a concrete well-formed element against the collection
containing its id. -/
theorem parse_pdg_element_wellformed_witness :
    parse_pdg_element [("inspireId", JVal.jint 5), ("pdgIdList", JVal.jarr ["S1"])]
        [5] =
      if (5 : Int) ∈ ([5] : List Int) then
        some (ParseResult.Success, some 5, some (JVal.jarr ["S1"]))
      else some (ParseResult.Missing, none, none) :=
  parse_pdg_element_wellformed _ _ 5 (JVal.jarr ["S1"])
    (by decide) (by decide) (by decide)

/-- C7: for an element whose key set is not exactly
`{inspireId, pdgIdList}`, `parse_pdg_element` returns `Invalid` with no
record id and no pdg values, whatever the collection is. -/
theorem parse_pdg_element_invalid (element : Element) (hep : List Int)
    (hkeys : listSetEq (element.map Prod.fst) ["inspireId", "pdgIdList"] = false) :
    parse_pdg_element element hep = some (ParseResult.Invalid, none, none) := by
  simp [parse_pdg_element, hkeys]

/-- Witness for C7: the empty element is classified `Invalid`. -/
theorem parse_pdg_element_invalid_witness :
    parse_pdg_element [] [5] = some (ParseResult.Invalid, none, none) :=
  parse_pdg_element_invalid [] [5] (by decide)

/-- C2: the add, compare and delete id sets computed by `main` are pairwise
disjoint and their union is the union of the current and new id sets. -/
theorem reconciliation_sets_partition (curIds newIds : List Int) :
    ((ids_add newIds curIds).toFinset ∩ (ids_compare curIds newIds).toFinset = ∅ ∧
     (ids_add newIds curIds).toFinset ∩ (ids_delete curIds newIds).toFinset = ∅ ∧
     (ids_compare curIds newIds).toFinset ∩ (ids_delete curIds newIds).toFinset = ∅) ∧
    ((ids_add newIds curIds).toFinset ∪ (ids_compare curIds newIds).toFinset ∪
        (ids_delete curIds newIds).toFinset
      = curIds.toFinset ∪ newIds.toFinset) := by
  refine ⟨⟨?_, ?_, ?_⟩, ?_⟩ <;>
  · ext x
    simp only [ids_add, ids_compare, ids_delete, pySetDiff, pySetInter,
      Finset.mem_inter, Finset.mem_union, Finset.not_mem_empty, List.mem_toFinset,
      List.mem_filter, List.mem_dedup, decide_eq_true_eq, iff_false, not_and]
    tauto

/-- C9: the record forwarder raises exactly when `curdir/recmysql` is
missing; otherwise it copies the record file to the staging directory,
submits the copy to bibupload, stores the job id in `curdir/bibupload_id`
and returns the empty string. -/
theorem confsubmit_insert_record_spec (env : SubmitEnv) :
    (CONFSUBMIT_Insert_Record env = Except.error "Could not find record file" ↔
      "recmysql" ∉ env.curdirFiles) ∧
    ("recmysql" ∈ env.curdirFiles →
      CONFSUBMIT_Insert_Record env = Except.ok
        ([SubmitAction.copy (pathJoin env.curdir "recmysql")
            (pathJoin env.sharedDir
              ((env.rn.replace "/" "_") ++ "_" ++ env.timeStamp)),
          SubmitAction.submit "bibupload" "websubmit.Insert_Record"
            ["-r", "-i",
              pathJoin env.sharedDir
                ((env.rn.replace "/" "_") ++ "_" ++ env.timeStamp), "-P", "5"],
          SubmitAction.writeFile (pathJoin env.curdir "bibupload_id")
            (toString env.bibuploadId)], "")) := by
  unfold CONFSUBMIT_Insert_Record
  by_cases h : "recmysql" ∈ env.curdirFiles <;> simp [h]

/-- Witness for C9: a concrete directory that does contain `recmysql`. -/
theorem confsubmit_insert_record_spec_witness :
    CONFSUBMIT_Insert_Record ⟨"cd", "sh", ["recmysql"], "a/b", "T", 42⟩ =
      Except.ok
        ([SubmitAction.copy (pathJoin "cd" "recmysql")
            (pathJoin "sh" ((String.replace "a/b" "/" "_") ++ "_" ++ "T")),
          SubmitAction.submit "bibupload" "websubmit.Insert_Record"
            ["-r", "-i", pathJoin "sh" ((String.replace "a/b" "/" "_") ++ "_" ++ "T"),
              "-P", "5"],
          SubmitAction.writeFile (pathJoin "cd" "bibupload_id") (toString 42)], "") :=
  (confsubmit_insert_record_spec ⟨"cd", "sh", ["recmysql"], "a/b", "T", 42⟩).2
    (by decide)

/-- C8: an `IOError` on the input file ends the run with exit code 2, while
an `IOError` on an output file is caught: only the error and count lines
are logged, no write event happens, and the function returns normally. -/
theorem io_error_semantics :
    (∀ (env : Env) (dry : Bool), env.input_file = none →
      (mainRun env dry).2 = Outcome.exited 2) ∧
    (get_elements_from_file none = Except.error 2) ∧
    (∀ (name : String) (xs : List String),
      write_list_to_file true name xs =
        [Event.log ("Error: Could not write to file: " ++ name),
         Event.log ("-> " ++ toString xs.length ++ " lines written to " ++ name)]) := by
  refine ⟨?_, rfl, fun name xs => rfl⟩
  intro env dry h
  unfold mainRun
  rw [h]
  rfl

/-- Witness for C8: a run whose input file fails to open exits with code 2. -/
theorem io_error_semantics_witness :
    (mainRun envNoInput false).2 = Outcome.exited 2 :=
  io_error_semantics.1 envNoInput false rfl

/-- C3 (refuted, code bug): with one current record and an empty feed the
compare set is empty and the delete set is nonempty, yet `main` crashes at
`len(updates)` (a `TypeError` on `None`) and emits no deletion change-set. -/
theorem main_crash_when_compare_empty :
    ids_compare envEmptyCompare.current_record_ids [] = [] ∧
    ids_delete envEmptyCompare.current_record_ids [] = [7] ∧
    mainRun envEmptyCompare false = ([], Outcome.crashed) := by
  refine ⟨by decide, by decide, by decide⟩

/-- C10: `is_pdg_field` is defined exactly on fields with at least one `2`
subfield value and, when that first value is `PDG`, at least one `9`
subfield value; `filterPdg` (the classification loop) is defined exactly
when every field satisfies this; and both `remove_pdg_fields` and
`check_existing_pdg_fields` succeed only when every `084` field instance of
every processed record satisfies the precondition — otherwise the run
fails. -/
theorem is_pdg_field_partiality :
    (∀ f : Field, (is_pdg_field f).isSome ↔
      ((field_get_subfield_values f "2") ≠ [] ∧
        ((field_get_subfield_values f "2").head? = some "PDG" →
          (field_get_subfield_values f "9") ≠ []))) ∧
    (∀ fields : List Field,
      (filterPdg fields).isSome ↔ ∀ f ∈ fields, (is_pdg_field f).isSome) ∧
    (∀ (recids : List Int) (current : Int → Option Record)
        (out : List (Int × Record)),
      remove_pdg_fields recids current = some out →
        ∀ recid ∈ recids, ∀ r : Record, current recid = some r →
          ∀ f ∈ record_get_field_instances r "084", (is_pdg_field f).isSome) ∧
    (∀ (recids : List Int) (pd : Int → Option JVal)
        (current : Int → Option Record) (out : List (Int × Record)),
      check_existing_pdg_fields recids pd current = some out →
        ∀ recid ∈ recids, ∀ r : Record, current recid = some r →
          ∀ f ∈ record_get_field_instances r "084", (is_pdg_field f).isSome) := by
  refine ⟨is_pdg_field_isSome_iff, filterPdg_isSome_iff, ?_, ?_⟩
  · intro recids current out hout recid hmem r hr f hf
    unfold remove_pdg_fields buildRecords at hout
    have hstep := buildRecords_fold_step_isSome _ recids [] out hout recid hmem
    have hro : (removeOne r).isSome := by
      cases hx : removeOne r with
      | some rm => simp
      | none => simp [removeStep, hr, hx] at hstep
    exact removeOne_isSome_defined r hro f hf
  · intro recids pd current out hout recid hmem r hr f hf
    unfold check_existing_pdg_fields buildRecords at hout
    have hstep := buildRecords_fold_step_isSome _ recids [] out hout recid hmem
    have hco : ∃ nd, (checkOne nd r).isSome := by
      cases hv : pd recid with
      | none => simp [checkStep, hr, hv] at hstep
      | some v =>
        cases hi : pyIterStrings v with
        | none => simp [checkStep, hr, hv, hi] at hstep
        | some nd =>
          refine ⟨nd, ?_⟩
          cases hx : checkOne nd r with
          | some o => simp
          | none => simp [checkStep, hr, hv, hi, hx] at hstep
    obtain ⟨nd, hco⟩ := hco
    exact checkOne_isSome_defined nd r hco f hf

/-- Witness for C10: a concrete successful `remove_pdg_fields` run shows
its record's PDG field satisfies the definedness precondition. -/
theorem is_pdg_field_partiality_witness :
    (is_pdg_field (pdgField "S008" 2)).isSome :=
  is_pdg_field_partiality.2.2.1 [7] currentExample [(7, rec7)]
    (by decide) 7 (by decide) rec7 (by decide) (pdgField "S008" 2) (by decide)

/-- C6: on a successful `remove_pdg_fields` run, each processed record's
deletion change-set entry holds exactly the record's `001` entry plus those
`084` instances whose first `2` and `9` subfield values are both `PDG`
(equivalently, the `is_pdg_field`-classified ones); non-PDG fields are
never listed. -/
theorem remove_pdg_fields_exact (recids : List Int) (current : Int → Option Record)
    (out : List (Int × Record)) (recid : Int) (r : Record) (f001 : List Field)
    (hout : remove_pdg_fields recids current = some out)
    (hmem : recid ∈ recids)
    (hr : current recid = some r)
    (h001 : alistLookup "001" r = some f001) :
    alistLookup recid out = some [("001", f001),
      ("084", (record_get_field_instances r "084").filter
        (fun f => decide (is_pdg_field f = some true)))] ∧
    (∀ f ∈ record_get_field_instances r "084",
      (is_pdg_field f = some true ↔
        (field_get_subfield_values f "2").head? = some "PDG" ∧
        (field_get_subfield_values f "9").head? = some "PDG")) := by
  unfold remove_pdg_fields buildRecords at hout
  have hstep := buildRecords_fold_step_isSome _ recids [] out hout recid hmem
  have hro : (removeOne r).isSome := by
    cases hx : removeOne r with
    | some rm => simp
    | none => simp [removeStep, hr, hx] at hstep
  have hdef := removeOne_isSome_defined r hro
  have hrm := removeOne_eq r f001 h001 hdef
  have hstepval : removeStep current recid = some (some [("001", f001),
      ("084", (record_get_field_instances r "084").filter
        (fun f => decide (is_pdg_field f = some true)))]) := by
    simp [removeStep, hr, hrm]
  rcases (buildRecords_fold_lookup _ recids [] out hout recid).1 hmem with
    ⟨rm, hsv, hl⟩ | ⟨hsv, _⟩
  · rw [hstepval] at hsv
    have hval := Option.some.inj (Option.some.inj hsv)
    constructor
    · rw [hl, ← hval]
    · intro f hf
      exact is_pdg_field_true_iff f (hdef f hf)
  · rw [hstepval] at hsv
    exact absurd (Option.some.inj hsv) (by simp)

/-- Witness for C6: the concrete delete-set run over record 7. -/
theorem remove_pdg_fields_exact_witness :
    alistLookup 7 [(7, rec7)] = some [("001", ctl7),
      ("084", (record_get_field_instances rec7 "084").filter
        (fun f => decide (is_pdg_field f = some true)))] ∧
    (∀ f ∈ record_get_field_instances rec7 "084",
      (is_pdg_field f = some true ↔
        (field_get_subfield_values f "2").head? = some "PDG" ∧
        (field_get_subfield_values f "9").head? = some "PDG")) :=
  remove_pdg_fields_exact [7] currentExample [(7, rec7)] 7 rec7 ctl7
    (by decide) (by decide) (by decide) (by decide)

/-- C5: when a compare-set record's current PDG values equal the desired
ones as sets, the diff has zero deletions and zero additions, the record is
skipped (`checkOne` yields no correction), and it is absent from the
correction change-set — so a re-run on its own output changes nothing. -/
theorem check_existing_pdg_fields_no_change (recids : List Int)
    (pd : Int → Option JVal) (current : Int → Option Record)
    (out : List (Int × Record)) (recid : Int) (r : Record) (nd cur : List String)
    (hout : check_existing_pdg_fields recids pd current = some out)
    (hmem : recid ∈ recids) (hr : current recid = some r)
    (hnd : pd recid = some (JVal.jarr nd))
    (hcur : collectPdgValues (record_get_field_instances r "084") = some cur)
    (heq : cur.toFinset = nd.toFinset) :
    pySetDiff cur nd = [] ∧ pySetDiff nd cur = [] ∧
    checkOne nd r = some none ∧ alistLookup recid out = none := by
  have hsub1 : ∀ x ∈ cur, x ∈ nd := by
    intro x hx
    have hx' := List.mem_toFinset.mpr hx
    rw [heq] at hx'
    exact List.mem_toFinset.mp hx'
  have hsub2 : ∀ x ∈ nd, x ∈ cur := by
    intro x hx
    have hx' := List.mem_toFinset.mpr hx
    rw [← heq] at hx'
    exact List.mem_toFinset.mp hx'
  have hdel := pySetDiff_eq_nil_of_subset cur nd hsub1
  have hadd := pySetDiff_eq_nil_of_subset nd cur hsub2
  unfold check_existing_pdg_fields buildRecords at hout
  have hstep := buildRecords_fold_step_isSome _ recids [] out hout recid hmem
  have hcs : (checkOne nd r).isSome := by
    cases hx : checkOne nd r with
    | some o => simp
    | none => simp [checkStep, hr, hnd, pyIterStrings, hx] at hstep
  obtain ⟨f001, f084, h1, h2, _⟩ := checkOne_isSome_parts nd r hcs
  have hfi := record_get_field_instances_of_lookup r "084" f084 h2
  rw [hfi] at hcur
  have hone : checkOne nd r = some none := by
    unfold checkOne
    rw [h1, h2]
    simp only [Option.some_bind]
    exact checkOneCore_skip nd f001 f084 cur hcur hdel hadd
  refine ⟨hdel, hadd, hone, ?_⟩
  have hstepval : checkStep pd current recid = some none := by
    simp [checkStep, hr, hnd, pyIterStrings, hone]
  rcases (buildRecords_fold_lookup _ recids [] out hout recid).1 hmem with
    ⟨rm, hsv, _⟩ | ⟨_, hl⟩
  · rw [hstepval] at hsv
    exact absurd (Option.some.inj hsv) (by simp)
  · rw [hl]; rfl

/-- Witness for C5: record 7 already carries exactly the desired value
`S008`, so the compare run leaves the correction set empty. -/
theorem check_existing_pdg_fields_no_change_witness :
    pySetDiff ["S008"] ["S008"] = [] ∧ pySetDiff ["S008"] ["S008"] = [] ∧
    checkOne ["S008"] rec7 = some none ∧
    alistLookup 7 ([] : List (Int × Record)) = none :=
  check_existing_pdg_fields_no_change [7] pdExample currentExample [] 7 rec7
    ["S008"] ["S008"] (by decide) (by decide) (by decide) (by decide)
    (by decide) (by decide)

/-- C4 counterexample: a dry run (`dry_run = true`) over an input with one
invalid element still performs a file write — the invalid-elements report
is written even in dry-run mode. -/
theorem dry_run_still_writes_reports :
    (mainRun envInvalidElem true).1 =
      [Event.fileWrite "invalid-elements.txt" [""],
       Event.log "-> 1 lines written to invalid-elements.txt"] ∧
    (mainRun envInvalidElem true).1.any
      (fun e => (eventFileName e).isSome) = true := by
  refine ⟨by decide, by decide⟩

/-- C4 (amended): when `dry_run` is true the three XML change-set files are
never written — any file-write event of a dry run targets one of the
bad/missing/invalid report files — while `write_records_to_file` still logs
the intended record count. -/
theorem dry_run_suppresses_xml_only :
    (∀ (env : Env) (e : Event), e ∈ (mainRun env true).1 →
      eventFileName e = none ∨ eventFileName e = some "bad_record_ids" ∨
      eventFileName e = some "missing-records.txt" ∨
      eventFileName e = some "invalid-elements.txt") ∧
    (∀ (fails : Bool) (name : String) (records : List (Int × Record)),
      records.length > 0 →
        write_records_to_file fails name records true =
          [Event.log ("DRY: Ready to write " ++ toString records.length ++
            " entries to file.")]) := by
  constructor
  · intro env e he
    unfold mainRun at he
    cases hin : env.input_file with
    | none =>
      simp only [hin, get_elements_from_file] at he
      rcases ite_write_list_names _ _ _ _ e he with h | h
      · exact Or.inl h
      · exact Or.inr (Or.inl h)
    | some elems =>
      simp only [hin, get_elements_from_file] at he
      cases hp : parseAll env.hep_collection elems with
      | none =>
        simp only [hp] at he
        rcases ite_write_list_names _ _ _ _ e he with h | h
        · exact Or.inl h
        · exact Or.inr (Or.inl h)
      | some parsed =>
        simp only [hp, List.mem_append] at he
        rcases he with he | he
        · rcases ite_write_list_names _ _ _ _ e he with h | h
          · exact Or.inl h
          · exact Or.inr (Or.inl h)
        · rcases afterParse_dry_names _ _ _ _ e he with h | h | h
          · exact Or.inl h
          · exact Or.inr (Or.inr (Or.inl h))
          · exact Or.inr (Or.inr (Or.inr h))
  · intro fails name records h
    unfold write_records_to_file
    rw [if_pos h]
    rfl

/-- Witness for the amended C4: a concrete dry `write_records_to_file` call
emits only the DRY count log. -/
theorem dry_run_suppresses_xml_only_witness :
    write_records_to_file false "append.xml" [(7, rec7)] true =
      [Event.log ("DRY: Ready to write " ++
        toString ([(7, rec7)] : List (Int × Record)).length ++
        " entries to file.")] :=
  dry_run_suppresses_xml_only.2 false "append.xml" [(7, rec7)] (by decide)

end Inspire
